import Mathlib

/-!
Shallow embedding of the name-classification engine in `src/unigaz/writing.py`
(functions `check_script`, `norm`, `codify`, `classify`, and the romanization
block), together with theorems settling the frozen claims about it.

External libraries (langid, langdetect, ftlangdetect, language_tags, slugify,
textnorm, pinyin, transliterate, cyrtranslit, aaransia) are modelled as an
abstract environment `Env` of total functions; registry lookups that can return
Python `None` (and hence trigger `AttributeError` on attribute access) are
modelled as `Option`.  Uncaught Python exceptions are modelled with `Except`.
Classifier confidence scores are modelled as `Rat`; the source only ever
compares them against the literal threshold 0.5, so no float arithmetic is lost.

The script-range regex table: `src/unigaz/script_codes.py` (defining
`REGEX_SCRIPT_CODES`) is not present under `src/`, so the code list is modelled
from the spec; the per-code pattern construction
`^[\s\p{Common}\p{CODE}]+$` is taken from `writing.py` line 28.  The Unicode
Script and Common character tables live in the external `regex` package and are
modelled here by partial range tables (the Script property is a partition, so a
character belongs to at most one script class).
-/

namespace Unigaz

/-- Python whitespace codepoints recognised by the regex class `\s`
(modelled, partial: ASCII whitespace plus NEL, NBSP, LS, PS and the
ideographic space). -/
def wsCodepoints : List Nat :=
  [0x9, 0xA, 0xB, 0xC, 0xD, 0x20, 0x85, 0xA0, 0x2028, 0x2029, 0x3000]

/-- Character is matched by the regex class `\s` (modelled). -/
def isPyWs (c : Char) : Bool := decide (c.toNat ∈ wsCodepoints)

/-- Codepoint ranges with Unicode Script property `Common` (modelled,
partial: ASCII punctuation and digits, Latin-1 punctuation, CJK ideographic
comma and full stop). -/
def commonRanges : List (Nat × Nat) :=
  [(0x21, 0x40), (0x5B, 0x60), (0x7B, 0xBF), (0x3001, 0x3002)]

/-- Character is matched by the regex class `\p\x7bCommon\x7d` (modelled). -/
def isCommonCh (c : Char) : Bool :=
  decide (∃ p ∈ commonRanges, p.1 ≤ c.toNat ∧ c.toNat ≤ p.2)

/-- Codepoint ranges of the Unicode Script property for the scripts in the
table (modelled, partial; the Script property assigns each character at most
one script, so the ranges for distinct scripts are disjoint). -/
def scriptRangesTable : List (Nat × Nat × String) :=
  [(0x41, 0x5A, "Latn"), (0x61, 0x7A, "Latn"), (0xC0, 0xD6, "Latn"),
   (0xD8, 0xF6, "Latn"), (0xF8, 0x24F, "Latn"),
   (0x386, 0x386, "Grek"), (0x388, 0x3CE, "Grek"), (0x3D0, 0x3FF, "Grek"),
   (0x400, 0x484, "Cyrl"), (0x48A, 0x52F, "Cyrl"),
   (0x620, 0x64A, "Arab"), (0x66E, 0x6D3, "Arab"),
   (0x3400, 0x4DBF, "Hani"), (0x4E00, 0x9FFF, "Hani")]

/-- First range of the list containing `n`, returning its tag. -/
def lookupRangeTag : List (Nat × Nat × String) → Nat → Option String
  | [], _ => none
  | (lo, hi, code) :: rest, n =>
    if lo ≤ n ∧ n ≤ hi then some code else lookupRangeTag rest n

/-- Unicode Script property of a character (modelled, partial). -/
def charScript (c : Char) : Option String :=
  lookupRangeTag scriptRangesTable c.toNat

/-- Modelled from the spec: the ordered script-code table
`REGEX_SCRIPT_CODES` of the missing file `src/unigaz/script_codes.py`
(spec section 3 names the codes Latn, Cyrl, Arab, Hani, Grek; the declared
order is not recorded by the spec). -/
def REGEX_SCRIPT_CODES : List String := ["Latn", "Grek", "Cyrl", "Arab", "Hani"]

/-- Membership of a character in the regex class
`[\s\p\x7bCommon\x7d\p\x7bCODE\x7d]` built in `writing.py` line 28. -/
def charInScriptClass (code : String) (c : Char) : Bool :=
  isPyWs c || isCommonCh c || decide (charScript c = some code)

/-- Whole-string match of the compiled pattern
`^[\s\p\x7bCommon\x7d\p\x7bCODE\x7d]+$` (writing.py line 28): the `+`
quantifier demands at least one character, and every character must lie in
the class.  Models one entry of the `rxx_scripts` dict. -/
def scriptPattern (code : String) (s : String) : Bool :=
  !s.data.isEmpty && s.data.all (charInScriptClass code)

/-- Iteration of `check_script` over the ordered code table: return the
first code whose pattern matches, else None. -/
def firstMatch (s : String) : List String → Option String
  | [] => none
  | code :: rest => if scriptPattern code s then some code else firstMatch s rest

/-- Embedding of `check_script` (writing.py lines 39 to 44): try the script
patterns in table order (the `rxx_scripts` dict preserves the insertion
order of `REGEX_SCRIPT_CODES`) and return the first code whose pattern
matches the whole string, else None. -/
def check_script (s : String) : Option String :=
  firstMatch s REGEX_SCRIPT_CODES

/-- Python truthiness of an optional string argument: `None` and the empty
string are falsy. -/
def pyTruthy (o : Option String) : Option String :=
  match o with
  | none => none
  | some s => if s == "" then none else some s

/-- Model of a `language_tags` Language subtag object: its `.format` string
and its default script subtag (`.script`, as the `.format` of that subtag;
`none` models Python `None` for languages without a Suppress-Script). -/
structure LanguageSubtag where
  format : String
  script : Option String
deriving Repr, DecidableEq

/-- Python value of the variable `language_code_final`: normally a string,
but when the caller supplies `language_code`, line 79 makes `language_tag`
a string and line 106 then reads its `.format`, which is the bound
`str.format` method rather than a string. -/
inductive PyStr
  | str (v : String)
  | fmtMethod (v : String)
deriving Repr, DecidableEq

/-- Python `==` between `language_code_final` and a string literal: a bound
method compares unequal to every string. -/
def pyStrEq (p : PyStr) (w : String) : Bool :=
  match p with
  | .str v => v == w
  | .fmtMethod _ => false

/-- Uncaught Python exceptions of the embedded code: the deliberate
`RuntimeError(f"langconflict: ...")` and attribute lookups on objects that
lack the attribute (`None.format`, `str.script`, and passing a bound method
into `tags.language`). -/
inductive CErr
  | langConflict (codes : List String)
  | attributeError
deriving Repr, DecidableEq

/-- Python value of the variable `language_tag` inside `classify`: `None`,
a Language subtag object, or (in the caller-supplied branch, line 79) a
plain string. -/
inductive LangTagV
  | pyNone
  | tagObj (t : LanguageSubtag)
  | pyString (v : String)
deriving Repr, DecidableEq

/-- Result tuple of `classify`:
`(attested, romanized, language_code_final, script_code_final)`.
The Python set `romanized` is modelled as a duplicate-free list built by
`setAdd`. -/
structure Classification where
  attested : Option String
  romanized : List String
  language : PyStr
  script : String
deriving Repr, DecidableEq

/-- Python `set.add`: append the element unless already present. -/
def setAdd (l : List String) (x : String) : List String :=
  if x ∈ l then l else l ++ [x]

/-- Conditional `set.add` used to model guarded add statements. -/
def condAdd (b : Bool) (l : List String) (x : String) : List String :=
  if b then setAdd l x else l

/-- Python `str.capitalize`: first character uppercased, the rest
lowercased. -/
def capitalizePy (s : String) : String :=
  match s.data with
  | [] => ""
  | c :: cs => String.mk (c.toUpper :: cs.map Char.toLower)

/-- Split a character list at whitespace (helper for `pySplit`). -/
def splitWsAux : List Char → List Char → List String
  | [], acc => [String.mk acc.reverse]
  | c :: cs, acc =>
    if isPyWs c then String.mk acc.reverse :: splitWsAux cs []
    else splitWsAux cs (c :: acc)

/-- Python `str.split()` with no argument: split on whitespace runs and
drop empty pieces. -/
def pySplit (s : String) : List String :=
  (splitWsAux s.data []).filter (fun t => !(t == ""))

/-- Abstract environment of the external libraries used by `writing.py`.
Each field models one external callable; registry lookups that can yield
Python `None` are `Option`-valued. -/
structure Env where
  normalizeUnicode : String → String
  normalizeSpace : String → String
  langidClassify : String → String × Rat
  langdetectDetect : String → String
  ftDetect : String → String × Rat
  tagsLanguage : String → Option LanguageSubtag
  tagTagFormat : String → String
  slugify : String → String
  translitCodes : List String
  translit : String → String → String
  pinyinGet : String → String
  pinyinStrip : String → String
  pinyinNumerical : String → String
  cyrSupported : List String
  cyrToLatin : String → String → String
  aaransiaCodes : List String
  aaransiaToEn : String → String → String

/-- Embedding of `norm` (writing.py lines 47 to 49):
`normalize_space(normalize_unicode(s))`. -/
def norm (env : Env) (s : String) : String :=
  env.normalizeSpace (env.normalizeUnicode s)

/-- Embedding of `codify` (writing.py lines 52 to 69).  An absent or empty
language code defaults to `"und"`; with a script code present, the script
subtag is appended unless the language is not `"und"` and its default
script equals the supplied code; `tags.language(lc).script.format` raises
`AttributeError` when the lookup or the script is `None`; the composed
string finally passes through `tags.tag(code).format`. -/
def codify (env : Env) (language_code script_code : Option String) :
    Except CErr String :=
  let lc := match pyTruthy language_code with
            | some l => l
            | none => "und"
  match pyTruthy script_code with
  | some sc =>
    if lc == "und" then .ok (env.tagTagFormat (lc ++ "-" ++ sc))
    else
      match env.tagsLanguage lc with
      | none => .error .attributeError
      | some t =>
        match t.script with
        | none => .error .attributeError
        | some f =>
          if f == sc then .ok (env.tagTagFormat lc)
          else .ok (env.tagTagFormat (lc ++ "-" ++ sc))
  | none => .ok (env.tagTagFormat lc)

/-- Candidate language-code set of `classify` (writing.py lines 81 to 91):
the langid code when its probability reaches 0.5, the langdetect code
unconditionally, and the fastText code when its score reaches 0.5,
collected into a set. -/
def detectCodes (env : Env) (v : String) : List String :=
  let codes := if mkRat 1 2 ≤ (env.langidClassify v).2
               then setAdd [] (env.langidClassify v).1 else []
  let codes := setAdd codes (env.langdetectDetect v)
  if mkRat 1 2 ≤ (env.ftDetect v).2 then setAdd codes (env.ftDetect v).1
  else codes

/-- Value of `tags.language(code)` used as `language_tag`: the subtag
object, or Python `None` when the registry does not know the code. -/
def langFromCode (env : Env) (c : String) : LangTagV :=
  match env.tagsLanguage c with
  | some t => .tagObj t
  | none => .pyNone

/-- Detector voting of `classify` (writing.py lines 80 to 102), reached
when no caller language code is truthy: for inputs of at least five
whitespace tokens the three detectors vote; with more than one candidate
the fastText code wins when it differs from the langid code and a
`langconflict` RuntimeError is raised when it does not; a single candidate
is looked up directly; otherwise `language_tag` stays `None`. -/
def langDetectPhase (env : Env) (v : String) : Except CErr LangTagV :=
  if 5 ≤ (pySplit v).length then
    if 1 < (detectCodes env v).length then
      if (env.ftDetect v).1 ≠ (env.langidClassify v).1 then
        .ok (langFromCode env (env.ftDetect v).1)
      else .error (.langConflict (detectCodes env v))
    else
      match detectCodes env v with
      | [c] => .ok (langFromCode env c)
      | _ => .ok .pyNone
  else .ok .pyNone

/-- Language phase of `classify` (writing.py lines 77 to 104).  With a
truthy caller code, line 79 stores the STRING `tags.language(code).format`
in `language_tag` (raising if the lookup is `None`); otherwise the
detector voting of `langDetectPhase` runs. -/
def langPhase (env : Env) (v : String) (language_code : Option String) :
    Except CErr LangTagV :=
  match pyTruthy language_code with
  | some lc =>
    match env.tagsLanguage lc with
    | some t => .ok (.pyString t.format)
    | none => .error .attributeError
  | none => langDetectPhase env v

/-- Lines 105 to 108: `language_code_final = language_tag.format`, with
`AttributeError` (from `None`) caught and mapped to `"und"`.  On the string
stored by line 79 the attribute access yields the bound `str.format`
method, not a string. -/
def languageCodeFinal (ltv : LangTagV) : PyStr :=
  match ltv with
  | .tagObj t => .str t.format
  | .pyString v => .fmtMethod v
  | .pyNone => .str "und"

/-- Script phase of `classify` (writing.py lines 111 to 128): precedence is
the truthy caller override, then `check_script` on the raw input, then the
default script of a truthy `language_tag`, else `"und"`; a successful
format is capitalized, a `None.format` AttributeError is caught as `"und"`,
and `.script` on the string stored by line 79 raises uncaught. -/
def scriptPhase (env : Env) (s : String) (script_code : Option String)
    (ltv : LangTagV) : Except CErr String :=
  match pyTruthy script_code with
  | some sc => .ok (capitalizePy (env.tagTagFormat sc))
  | none =>
    match check_script s with
    | some c => .ok (capitalizePy (env.tagTagFormat c))
    | none =>
      match ltv with
      | .tagObj t =>
        match t.script with
        | some f => .ok (capitalizePy f)
        | none => .ok "und"
      | .pyString sv => if sv == "" then .ok "und" else .error .attributeError
      | .pyNone => .ok "und"

/-- Language correction (writing.py lines 130 to 132): Han script with an
undetermined language forces `"zh"`. -/
def haniFix (scf : String) (lcf : PyStr) : PyStr :=
  if scf == "Hani" && pyStrEq lcf "und" then .str "zh" else lcf

/-- Attested phase (writing.py lines 134 to 140): non-Latin script keeps
the normalized text; Latin script keeps it only when the language is
determined and its default script equals the final script; the inner
registry chain raises `AttributeError` on `None` lookups or when
`language_code_final` is the bound method from the caller branch. -/
def attestedPhase (env : Env) (v : String) (lcf : PyStr) (scf : String) :
    Except CErr (Option String) :=
  if !(scf == "Latn") then .ok (some v)
  else if !(pyStrEq lcf "und") && !(scf == "und") then
    match lcf with
    | .fmtMethod _ => .error .attributeError
    | .str l =>
      match env.tagsLanguage l with
      | none => .error .attributeError
      | some t =>
        match t.script with
        | none => .error .attributeError
        | some f => .ok (if f == scf then some v else none)
  else .ok none

/-- Romanized phase (writing.py lines 142 to 158): always the slug; the
normalized text when the raw string tested as Latin; a reverse
transliteration when the language is in the transliterate list; the three
Pinyin renderings for cmn or zh in Hans or Hant; a Cyrillic-to-Latin pass
for supported Cyrl languages; an aaransia pass for its alphabet codes.
Membership tests against the bound-method value are all false. -/
def romanizedPhase (env : Env) (v : String) (scfs : Option String)
    (lcf : PyStr) (scf : String) : List String :=
  let r := setAdd [] (env.slugify v)
  let r := condAdd (scfs == some "Latn") r v
  let r := match lcf with
           | .str l => condAdd (env.translitCodes.contains l) r (env.translit v l)
           | .fmtMethod _ => r
  let pinb := (pyStrEq lcf "cmn" || pyStrEq lcf "zh")
              && (scf == "Hans" || scf == "Hant")
  let r := condAdd pinb r (env.pinyinGet v)
  let r := condAdd pinb r (env.pinyinStrip v)
  let r := condAdd pinb r (env.pinyinNumerical v)
  let r := match lcf with
           | .str l => condAdd ((scf == "Cyrl") && env.cyrSupported.contains l) r
                         (env.cyrToLatin v l)
           | .fmtMethod _ => r
  let r := match lcf with
           | .str l => condAdd (env.aaransiaCodes.contains l) r (env.aaransiaToEn v l)
           | .fmtMethod _ => r
  r

/-- Embedding of `classify` (writing.py lines 72 to 160): normalize, run
the language phase, resolve the script, apply the Han correction, decide
the attested form, build the romanized set, and return the tuple.  Errors
propagate uncaught. -/
def classify (env : Env) (s : String) (language_code script_code : Option String) :
    Except CErr Classification :=
  match langPhase env (norm env s) language_code with
  | .error e => .error e
  | .ok ltv =>
    match scriptPhase env s script_code ltv with
    | .error e => .error e
    | .ok scf =>
      match attestedPhase env (norm env s) (haniFix scf (languageCodeFinal ltv)) scf with
      | .error e => .error e
      | .ok att =>
        .ok ⟨att, romanizedPhase env (norm env s) (check_script s)
               (haniFix scf (languageCodeFinal ltv)) scf,
             haniFix scf (languageCodeFinal ltv), scf⟩

/-- Default script of the resolved language as seen by the attested phase:
`tags.language(x).script` for a string value, undefined for the bound
method. -/
def canonScript (env : Env) (p : PyStr) : Option String :=
  match p with
  | .str l => (env.tagsLanguage l).bind (fun t => t.script)
  | .fmtMethod _ => none

/-- Split a character list on the hyphen character (helper for
`parseTag`). -/
def splitDash : List Char → List (List Char)
  | [] => [[]]
  | c :: cs =>
    if c = '-' then [] :: splitDash cs
    else
      match splitDash cs with
      | [] => [[c]]
      | g :: gs => (c :: g) :: gs

/-- Modelled from the spec: split a composed tag back into its language
subtag and optional script subtag (the `parse` of the spec formula
`codify(parse(codify(lang, script)))`; no such helper exists in
`writing.py`). -/
def parseTag (r : String) : Option String × Option String :=
  match (splitDash r.data).map (fun l => String.mk l) with
  | [] => (none, none)
  | [l] => (some l, none)
  | l :: sc :: _ => (some l, some sc)

/-- Modelled from the documented behaviour of `tags.tag(code).format` of
the `language_tags` package (RFC 5646 case conventions): primary subtag
lowercased; a four-letter second subtag title-cased, any other second
subtag lowercased. -/
def tagFormatModel (x : String) : String :=
  match (splitDash x.data).map (fun l => String.mk l) with
  | [l, sc] =>
    String.mk (l.data.map Char.toLower) ++ "-" ++
      (if sc.data.length == 4 then capitalizePy sc
       else String.mk (sc.data.map Char.toLower))
  | _ => String.mk (x.data.map Char.toLower)

/-- Base environment: identity normalizers and formatter, empty registry
and scheme lists, trivial detectors.  Concrete environments below override
the fields the scenario needs, with values taken from the repository tests
and the documented behaviour of the external packages. -/
def baseEnv : Env where
  normalizeUnicode := fun s => s
  normalizeSpace := fun s => s
  langidClassify := fun _ => ("", 0)
  langdetectDetect := fun _ => ""
  ftDetect := fun _ => ("", 0)
  tagsLanguage := fun _ => none
  tagTagFormat := fun x => x
  slugify := fun s => s
  translitCodes := []
  translit := fun v _ => v
  pinyinGet := fun v => v
  pinyinStrip := fun v => v
  pinyinNumerical := fun v => v
  cyrSupported := []
  cyrToLatin := fun v _ => v
  aaransiaCodes := []
  aaransiaToEn := fun v _ => v

/-- English test sentence of `tests/test_writing.py::test_english`. -/
def sEng : String := "The quick brown fox jumped over the lazy dog."

/-- Slugified form of the English sentence (slugify with separator space
and lowercase disabled strips the terminal period). -/
def slugEng : String := "The quick brown fox jumped over the lazy dog"

/-- Lowercased English sentence (produced in the real run by the aaransia
en-to-en pass, per the expected set of `test_english`). -/
def sEngLower : String := "the quick brown fox jumped over the lazy dog."

/-- Environment of the English scenario: all three detectors agree on
`en` with full confidence, the registry knows English with default script
Latn, and aaransia lists `en`. -/
def envEng : Env :=
  { baseEnv with
    langidClassify := fun _ => ("en", 1)
    langdetectDetect := fun _ => "en"
    ftDetect := fun _ => ("en", 1)
    tagsLanguage := fun l => if l == "en" then some ⟨"en", some "Latn"⟩ else none
    slugify := fun _ => slugEng
    aaransiaCodes := ["en"]
    aaransiaToEn := fun _ _ => sEngLower }

/-- Han-script test sentence of `tests/test_writing.py::test_chinese`. -/
def zhS : String := "敏捷的棕色狐狸跳過了懶惰的狗。"

/-- Slugified form of the Han sentence, from the expected set of
`test_chinese`. -/
def zhSlug : String := "Min Jie De Zong Se Hu Li Tiao Guo Liao Lan Duo De Gou"

/-- Tone-marked Pinyin of the Han sentence (what `pinyin.get` would
return). -/
def zhPinMarked : String := "mǐnjiédezōngsèhúlítiàoguòlelǎnduòdegǒu"

/-- Tone-stripped space-joined Pinyin of the Han sentence. -/
def zhPinStrip : String := "min jie de zong se hu li tiao guo le lan duo de gou"

/-- Tone-numbered Pinyin of the Han sentence. -/
def zhPinNum : String := "min3jie2de5zong1se4hu2li2tiao4guo4le5lan3duo4de5gou3"

/-- Environment of the Han scenario: the detectors are never consulted
(the sentence is a single whitespace token), the registry is irrelevant,
and the Pinyin renderings are supplied by the pinyin package. -/
def envZh : Env :=
  { baseEnv with
    slugify := fun _ => zhSlug
    pinyinGet := fun _ => zhPinMarked
    pinyinStrip := fun _ => zhPinStrip
    pinyinNumerical := fun _ => zhPinNum }

/-- Environment of the language-conflict scenario: langid answers `ru`
confidently, langdetect and fastText answer `uk`, and the registry knows
both codes (Ukrainian and Russian both default to Cyrl). -/
def envC3 : Env :=
  { baseEnv with
    langidClassify := fun _ => ("ru", 1)
    langdetectDetect := fun _ => "uk"
    ftDetect := fun _ => ("uk", 1)
    tagsLanguage := fun l =>
      if l == "uk" then some ⟨"uk", some "Cyrl"⟩
      else if l == "ru" then some ⟨"ru", some "Cyrl"⟩ else none }

/-- Environment of the conflict-raise scenario: langid and fastText agree
on `ru` while langdetect answers `uk`, so the candidate set has two
members and the override does not apply. -/
def envC3r : Env :=
  { baseEnv with
    langidClassify := fun _ => ("ru", 1)
    langdetectDetect := fun _ => "uk"
    ftDetect := fun _ => ("ru", 1)
    tagsLanguage := fun l =>
      if l == "uk" then some ⟨"uk", some "Cyrl"⟩
      else if l == "ru" then some ⟨"ru", some "Cyrl"⟩ else none }

/-- Registry environment for `codify`: the realistic tag formatter
`tagFormatModel` and the IANA facts that Russian suppresses Cyrl and
English suppresses Latn. -/
def envReg : Env :=
  { baseEnv with
    tagTagFormat := tagFormatModel
    tagsLanguage := fun l =>
      if l == "ru" then some ⟨"ru", some "Cyrl"⟩
      else if l == "en" then some ⟨"en", some "Latn"⟩ else none }

/-! ### Helper lemmas about the set model and the phase functions -/

theorem mem_setAdd {l : List String} {x : String} (y : String) (h : x ∈ l) :
    x ∈ setAdd l y := by
  unfold setAdd; split
  · exact h
  · exact List.mem_append_left _ h

theorem self_mem_setAdd (l : List String) (x : String) : x ∈ setAdd l x := by
  unfold setAdd; split
  · assumption
  · exact List.mem_append_right _ (List.mem_singleton.mpr rfl)

theorem mem_condAdd {l : List String} {x : String} (b : Bool) (y : String)
    (h : x ∈ l) : x ∈ condAdd b l y := by
  unfold condAdd; split
  · exact mem_setAdd y h
  · exact h

theorem slug_mem_romanizedPhase (env : Env) (v : String) (scfs : Option String)
    (lcf : PyStr) (scf : String) :
    env.slugify v ∈ romanizedPhase env v scfs lcf scf := by
  cases lcf with
  | str l =>
    exact mem_condAdd _ _ (mem_condAdd _ _ (mem_condAdd _ _ (mem_condAdd _ _
      (mem_condAdd _ _ (mem_condAdd _ _ (mem_condAdd _ _ (self_mem_setAdd _ _)))))))
  | fmtMethod w =>
    exact mem_condAdd _ _ (mem_condAdd _ _ (mem_condAdd _ _ (mem_condAdd _ _
      (self_mem_setAdd _ _))))

theorem attestedPhase_char {env : Env} {v : String} {lcf : PyStr} {scf : String}
    {att : Option String} (h : attestedPhase env v lcf scf = .ok att) :
    att = if scf = "Latn" ∧
            ¬(pyStrEq lcf "und" = false ∧ canonScript env lcf = some "Latn")
          then none else some v := by
  unfold attestedPhase at h
  by_cases h1 : scf = "Latn"
  · subst h1
    rw [if_neg (by simp)] at h
    by_cases h2 : pyStrEq lcf "und" = true
    · rw [if_neg (by simp [h2])] at h
      have := Except.ok.inj h
      simp [← this, h2]
    · have h2f : pyStrEq lcf "und" = false := by
        cases hk : pyStrEq lcf "und"
        · rfl
        · exact absurd hk h2
      rw [if_pos (by simp [h2f])] at h
      split at h
      next w => exact Except.noConfusion h
      next l =>
        split at h
        next hL => exact Except.noConfusion h
        next t hL =>
          split at h
          next hS => exact Except.noConfusion h
          next f hS =>
            have := Except.ok.inj h
            by_cases hf : f = "Latn"
            · subst hf
              simp only [canonScript, hL, Option.bind, hS]
              simp at this
              simp [← this, h2f]
            · have hfb : (f == "Latn") = false := by
                cases hk : f == "Latn"
                · rfl
                · exact absurd (by simpa using hk) hf
              rw [hfb] at this
              simp only [canonScript, hL, Option.bind, hS]
              simp [← this, h2f, hf]
  · rw [if_pos (by simp [h1])] at h
    have := Except.ok.inj h
    simp [← this, h1]

theorem classify_ok_elim {env : Env} {s : String} {lco sco : Option String}
    {res : Classification} (h : classify env s lco sco = .ok res) :
    ∃ ltv scf att,
      langPhase env (norm env s) lco = .ok ltv ∧
      scriptPhase env s sco ltv = .ok scf ∧
      attestedPhase env (norm env s) (haniFix scf (languageCodeFinal ltv)) scf
        = .ok att ∧
      res = ⟨att,
             romanizedPhase env (norm env s) (check_script s)
               (haniFix scf (languageCodeFinal ltv)) scf,
             haniFix scf (languageCodeFinal ltv), scf⟩ := by
  unfold classify at h
  split at h
  · exact Except.noConfusion h
  next ltv h1 =>
    split at h
    · exact Except.noConfusion h
    next scf h2 =>
      split at h
      · exact Except.noConfusion h
      next att h3 =>
        exact ⟨ltv, scf, att, h1, h2, h3, (Except.ok.inj h).symm⟩

theorem scriptPhase_error_eq {env : Env} {s : String} {sco : Option String}
    {ltv : LangTagV} {e : CErr} (h : scriptPhase env s sco ltv = .error e) :
    e = .attributeError := by
  unfold scriptPhase at h
  split at h
  · exact Except.noConfusion h
  · split at h
    · exact Except.noConfusion h
    · split at h
      · split at h
        · exact Except.noConfusion h
        · exact Except.noConfusion h
      · split at h
        · exact Except.noConfusion h
        · exact (Except.error.inj h).symm
      · exact Except.noConfusion h

theorem attestedPhase_error_eq {env : Env} {v : String} {lcf : PyStr}
    {scf : String} {e : CErr} (h : attestedPhase env v lcf scf = .error e) :
    e = .attributeError := by
  unfold attestedPhase at h
  split at h
  · exact Except.noConfusion h
  · split at h
    · split at h
      · exact (Except.error.inj h).symm
      · split at h
        · exact (Except.error.inj h).symm
        · split at h
          · exact (Except.error.inj h).symm
          · exact Except.noConfusion h
    · exact Except.noConfusion h

theorem scriptPhase_tagObj_ok (env : Env) (s : String) (sco : Option String)
    (t : LanguageSubtag) :
    ∃ scf, scriptPhase env s sco (.tagObj t) = .ok scf := by
  unfold scriptPhase
  split
  · exact ⟨_, rfl⟩
  · split
    · exact ⟨_, rfl⟩
    · cases hS : t.script with
      | none => exact ⟨"und", by simp [hS]⟩
      | some f => exact ⟨capitalizePy f, by simp [hS]⟩

theorem pyTruthy_some {o : Option String} {l : String}
    (h : pyTruthy o = some l) : o = some l ∧ l ≠ "" := by
  unfold pyTruthy at h
  cases o with
  | none => exact Option.noConfusion h
  | some w =>
    have h2 : (if (w == "") = true then none else some w) = some l := h
    by_cases hw : (w == "") = true
    · rw [if_pos hw] at h2
      exact Option.noConfusion h2
    · rw [if_neg hw] at h2
      have := Option.some.inj h2
      subst this
      exact ⟨rfl, by simpa using hw⟩

theorem mkData (s : String) : String.mk s.data = s := rfl

theorem splitDash_no_dash {cs : List Char} (h : ∀ c ∈ cs, c ≠ '-') :
    splitDash cs = [cs] := by
  induction cs with
  | nil => rfl
  | cons c cs ih =>
    have hc : c ≠ '-' := h c (List.mem_cons_self _ _)
    have ih2 := ih (fun d hd => h d (List.mem_cons_of_mem _ hd))
    simp [splitDash, if_neg hc, ih2]

theorem splitDash_append_dash {xs ys : List Char} (hx : ∀ c ∈ xs, c ≠ '-') :
    splitDash (xs ++ '-' :: ys) = xs :: splitDash ys := by
  induction xs with
  | nil => simp [splitDash]
  | cons c cs ih =>
    have hc : c ≠ '-' := hx c (List.mem_cons_self _ _)
    have ih2 := ih (fun d hd => hx d (List.mem_cons_of_mem _ hd))
    simp [splitDash, if_neg hc, ih2]

theorem splitDash_ne_nil (cs : List Char) : splitDash cs ≠ [] := by
  induction cs with
  | nil => simp [splitDash]
  | cons c cs ih =>
    by_cases hc : c = '-'
    · simp [splitDash, if_pos hc]
    · simp only [splitDash, if_neg hc]
      split
      · simp
      · simp

theorem parseTag_no_dash {l : String} (h : ∀ c ∈ l.data, c ≠ '-') :
    parseTag l = (some l, none) := by
  unfold parseTag
  rw [splitDash_no_dash h]
  simp [mkData]

theorem parseTag_two {l sc : String} (hl : ∀ c ∈ l.data, c ≠ '-')
    (hs : ∀ c ∈ sc.data, c ≠ '-') :
    parseTag (l ++ "-" ++ sc) = (some l, some sc) := by
  unfold parseTag
  have hd : (l ++ "-" ++ sc).data = l.data ++ '-' :: sc.data := by
    rw [String.data_append, String.data_append]
    simp
  rw [hd, splitDash_append_dash hl, splitDash_no_dash hs]
  simp [mkData]

theorem lookupRangeTag_bounds {rs : List (Nat × Nat × String)} {n : Nat}
    {X : String} (h : lookupRangeTag rs n = some X) :
    ∃ lo hi, (lo, hi, X) ∈ rs ∧ lo ≤ n ∧ n ≤ hi := by
  induction rs with
  | nil => exact Option.noConfusion h
  | cons r rest ih =>
    obtain ⟨lo, hi, code⟩ := r
    have h2 : (if lo ≤ n ∧ n ≤ hi then some code else lookupRangeTag rest n)
        = some X := h
    by_cases hc : lo ≤ n ∧ n ≤ hi
    · rw [if_pos hc] at h2
      have := Option.some.inj h2
      subst this
      exact ⟨lo, hi, List.mem_cons_self _ _, hc.1, hc.2⟩
    · rw [if_neg hc] at h2
      obtain ⟨lo2, hi2, hmem, hb1, hb2⟩ := ih h2
      exact ⟨lo2, hi2, List.mem_cons_of_mem _ hmem, hb1, hb2⟩

theorem charScript_not_common {c : Char} {X : String}
    (h : charScript c = some X) : isCommonCh c = false := by
  obtain ⟨lo, hi, hmem, h1, h2⟩ := lookupRangeTag_bounds h
  have hap : ∀ r ∈ scriptRangesTable, ∀ p ∈ commonRanges,
      r.2.1 < p.1 ∨ p.2 < r.1 := by decide
  unfold isCommonCh
  rw [decide_eq_false_iff_not]
  rintro ⟨p, hp, hp1, hp2⟩
  have h3 := hap _ hmem p hp
  dsimp only at h3
  rcases h3 with h3 | h3 <;> omega

theorem charScript_not_ws {c : Char} {X : String}
    (h : charScript c = some X) : isPyWs c = false := by
  obtain ⟨lo, hi, hmem, h1, h2⟩ := lookupRangeTag_bounds h
  have hap : ∀ r ∈ scriptRangesTable, ∀ w ∈ wsCodepoints,
      w < r.1 ∨ r.2.1 < w := by decide
  unfold isPyWs
  rw [decide_eq_false_iff_not]
  intro hw
  have h3 := hap _ hmem _ hw
  dsimp only at h3
  rcases h3 with h3 | h3 <;> omega

theorem charInScriptClass_self {c : Char} {X : String}
    (h : charScript c = some X) : charInScriptClass X c = true := by
  unfold charInScriptClass
  rw [h]
  simp

theorem charInScriptClass_other {c : Char} {X Y : String}
    (h : charScript c = some X) (hne : X ≠ Y) :
    charInScriptClass Y c = false := by
  unfold charInScriptClass
  rw [charScript_not_common h, charScript_not_ws h, h]
  simp [hne]

theorem scriptPattern_uniform {s : String} {X : String} (hne : s.data ≠ [])
    (hall : ∀ c ∈ s.data, charScript c = some X) :
    scriptPattern X s = true := by
  unfold scriptPattern
  rw [Bool.and_eq_true]
  refine ⟨by simpa using hne, ?_⟩
  rw [List.all_eq_true]
  intro c hc
  exact charInScriptClass_self (hall c hc)

theorem scriptPattern_other {s : String} {X Y : String} {c : Char}
    (hc : c ∈ s.data) (h : charScript c = some X) (hne : X ≠ Y) :
    scriptPattern Y s = false := by
  unfold scriptPattern
  have hall : s.data.all (charInScriptClass Y) = false := by
    rw [List.all_eq_false]
    exact ⟨c, hc, by simp [charInScriptClass_other h hne]⟩
  rw [hall, Bool.and_false]

theorem firstMatch_pattern {codes : List String} {s : String} {X : String}
    (hX : X ∈ codes) (hpat : scriptPattern X s = true)
    (hfail : ∀ Y, Y ≠ X → scriptPattern Y s = false) :
    firstMatch s codes = some X := by
  induction codes with
  | nil => exact absurd hX (List.not_mem_nil _)
  | cons y ys ih =>
    by_cases hy : y = X
    · subst hy
      simp [firstMatch, hpat]
    · have hf := hfail y hy
      simp only [firstMatch, hf]
      simp only [Bool.false_eq_true, if_false]
      exact ih (by rcases List.mem_cons.mp hX with h | h
                   · exact absurd h.symm hy
                   · exact h)

theorem firstMatch_none {codes : List String} {s : String}
    (h : ∀ code ∈ codes, scriptPattern code s = false) :
    firstMatch s codes = none := by
  induction codes with
  | nil => rfl
  | cons y ys ih =>
    simp only [firstMatch, h y (List.mem_cons_self _ _)]
    simp only [Bool.false_eq_true, if_false]
    exact ih (fun code hc => h code (List.mem_cons_of_mem _ hc))

theorem classify_eq_ok {env : Env} {s : String} {lco sco : Option String}
    {ltv : LangTagV} {scf : String} {att : Option String}
    (h1 : langPhase env (norm env s) lco = .ok ltv)
    (h2 : scriptPhase env s sco ltv = .ok scf)
    (h3 : attestedPhase env (norm env s) (haniFix scf (languageCodeFinal ltv)) scf
      = .ok att) :
    classify env s lco sco = .ok ⟨att,
      romanizedPhase env (norm env s) (check_script s)
        (haniFix scf (languageCodeFinal ltv)) scf,
      haniFix scf (languageCodeFinal ltv), scf⟩ := by
  simp only [classify, h1, h2, h3]

theorem attestedPhase_str_ok {env : Env} {v : String} {l : String}
    {scf : String} {t : LanguageSubtag} {f : String}
    (hlook : env.tagsLanguage l = some t) (hf : t.script = some f) :
    ∃ att, attestedPhase env v (.str l) scf = .ok att := by
  unfold attestedPhase
  by_cases hsl : (scf == "Latn") = true
  · rw [if_neg (by simp [hsl])]
    by_cases hcond : (!(pyStrEq (.str l) "und") && !(scf == "und")) = true
    · rw [if_pos hcond]
      simp only [hlook, hf]
      exact ⟨_, rfl⟩
    · rw [if_neg hcond]
      exact ⟨_, rfl⟩
  · rw [if_pos (by simp only [Bool.not_eq_true] at hsl; simp [hsl])]
    exact ⟨_, rfl⟩

/-! ### Claim theorems -/

/-- C7: for every input on which classify succeeds, the romanized set
contains the slugified copy of the normalized input, and is therefore
nonempty. -/
theorem spec_C7 (env : Env) (s : String) (lco sco : Option String)
    (res : Classification) (h : classify env s lco sco = .ok res) :
    env.slugify (norm env s) ∈ res.romanized ∧ res.romanized ≠ [] := by
  obtain ⟨ltv, scf, att, h1, h2, h3, hres⟩ := classify_ok_elim h
  subst hres
  exact ⟨slug_mem_romanizedPhase _ _ _ _ _,
         List.ne_nil_of_mem (slug_mem_romanizedPhase _ _ _ _ _)⟩

/-- Witness for C7: the English scenario evaluated concretely. -/
theorem spec_C7_witness :
    envEng.slugify (norm envEng sEng) ∈ [slugEng, sEng, sEngLower]
    ∧ [slugEng, sEng, sEngLower] ≠ ([] : List String) :=
  spec_C7 envEng sEng none none
    ⟨some sEng, [slugEng, sEng, sEngLower], .str "en", "Latn"⟩ (by rfl)

/-- C10: whenever classify succeeds, the attested field is None or exactly
the whitespace- and Unicode-normalized input, never the raw input or any
altered string. -/
theorem spec_C10 (env : Env) (s : String) (lco sco : Option String)
    (res : Classification) (h : classify env s lco sco = .ok res) :
    res.attested = none ∨ res.attested = some (norm env s) := by
  obtain ⟨ltv, scf, att, h1, h2, h3, hres⟩ := classify_ok_elim h
  subst hres
  have hc := attestedPhase_char h3
  dsimp only
  rw [hc]
  split
  · exact Or.inl rfl
  · exact Or.inr rfl

/-- Witness for C10: the English scenario evaluated concretely. -/
theorem spec_C10_witness :
    (some sEng = (none : Option String)) ∨ some sEng = some (norm envEng sEng) :=
  spec_C10 envEng sEng none none
    ⟨some sEng, [slugEng, sEng, sEngLower], .str "en", "Latn"⟩ (by rfl)

/-- C2 (amended): whenever classify succeeds, attested is None exactly
when the final script is Latn and it is NOT the case that the resolved
language is determined (not und) with canonical default script Latn.  The
original claim inverted the canonical-script condition. -/
theorem spec_C2_amended (env : Env) (s : String) (lco sco : Option String)
    (res : Classification) (h : classify env s lco sco = .ok res) :
    (res.attested = none ↔
      (res.script = "Latn" ∧
        ¬(pyStrEq res.language "und" = false ∧
          canonScript env res.language = some "Latn"))) := by
  obtain ⟨ltv, scf, att, h1, h2, h3, hres⟩ := classify_ok_elim h
  subst hres
  have hc := attestedPhase_char h3
  dsimp only
  rw [hc]
  split
  next hcond => exact iff_of_true rfl hcond
  next hcond => exact iff_of_false (by simp) hcond

/-- Witness for the amended C2 at the English scenario. -/
theorem spec_C2_amended_witness :
    ((some sEng : Option String) = none ↔
      ("Latn" = "Latn" ∧
        ¬(pyStrEq (PyStr.str "en") "und" = false ∧
          canonScript envEng (PyStr.str "en") = some "Latn"))) :=
  spec_C2_amended envEng sEng none none
    ⟨some sEng, [slugEng, sEng, sEngLower], .str "en", "Latn"⟩ (by rfl)

/-- C2 counterexample: in the English scenario the input is Latin-script
and the resolved language en has canonical script Latn, the exact
situation in which the claim says attested must be None; yet classify
returns attested equal to the normalized input. -/
theorem spec_C2_cex :
    classify envEng sEng none none
      = .ok ⟨some sEng, [slugEng, sEng, sEngLower], PyStr.str "en", "Latn"⟩
    ∧ check_script sEng = some "Latn"
    ∧ canonScript envEng (PyStr.str "en") = some "Latn"
    ∧ some sEng ≠ (none : Option String) :=
  ⟨rfl, rfl, rfl, by simp⟩

/-- C9 (amended): on the empty string every script pattern fails, because
the compiled pattern requires at least one character, so check_script
returns None rather than the first table code. -/
theorem spec_C9_amended :
    check_script "" = none
    ∧ REGEX_SCRIPT_CODES.all (fun code => !(scriptPattern code "")) = true :=
  ⟨rfl, rfl⟩

/-- C9 counterexample: the first code of the table is Latn, but
check_script on the empty string returns None, not that first code as the
claim asserts. -/
theorem spec_C9_cex :
    REGEX_SCRIPT_CODES.head? = some "Latn"
    ∧ check_script "" = none
    ∧ check_script "" ≠ REGEX_SCRIPT_CODES.head? :=
  ⟨rfl, rfl, fun hx => Option.noConfusion hx⟩

/-- C8: check_script tests the patterns in table order and returns the
first full match; a nonempty string whose characters all carry one script
property is matched by exactly that script's pattern and its code is
returned; when no pattern matches the whole string the result is None; and
a single character outside a script's class makes that script's pattern
fail. -/
theorem spec_C8 :
    (∀ s X, s.data ≠ [] → (∀ c ∈ s.data, charScript c = some X) →
      X ∈ REGEX_SCRIPT_CODES → check_script s = some X)
    ∧ (∀ s, (∀ code ∈ REGEX_SCRIPT_CODES, scriptPattern code s = false) →
      check_script s = none)
    ∧ (∀ s code c, c ∈ s.data → charInScriptClass code c = false →
      scriptPattern code s = false) := by
  refine ⟨?_, ?_, ?_⟩
  · intro s X hne hall hX
    obtain ⟨c, hc⟩ := List.exists_mem_of_ne_nil s.data hne
    exact firstMatch_pattern hX (scriptPattern_uniform hne hall)
      (fun Y hY => scriptPattern_other hc (hall c hc) (Ne.symm hY))
  · intro s hfail
    exact firstMatch_none hfail
  · intro s code c hc hbad
    unfold scriptPattern
    have hall : s.data.all (charInScriptClass code) = false := by
      rw [List.all_eq_false]
      exact ⟨c, hc, by simp [hbad]⟩
    rw [hall, Bool.and_false]

/-- Witness for C8 at a concrete all-Greek string. -/
theorem spec_C8_witness : check_script "αβ" = some "Grek" :=
  spec_C8.1 "αβ" "Grek" (by decide) (by decide) (by decide)

/-- C1 (amended): for the Han sentence with no caller codes, classify
returns language zh and script Hani, with attested the normalized text,
and the romanized set holds exactly the slugified rendering; the Pinyin
renderings are not added because the Pinyin branch requires script Hans or
Hant while the resolved script is Hani. -/
theorem spec_C1_amended :
    classify envZh zhS none none
      = .ok ⟨some zhS, [zhSlug], PyStr.str "zh", "Hani"⟩
    ∧ envZh.slugify zhS ∈ [zhSlug] :=
  ⟨rfl, List.mem_singleton.mpr rfl⟩

/-- C1 counterexample: at the Han input the claim asserts the three Pinyin
renderings belong to the romanized set; the returned set is the slugified
singleton and contains none of them. -/
theorem spec_C1_cex :
    classify envZh zhS none none
      = .ok ⟨some zhS, [zhSlug], PyStr.str "zh", "Hani"⟩
    ∧ envZh.pinyinGet zhS ∉ [zhSlug]
    ∧ envZh.pinyinStrip zhS ∉ [zhSlug]
    ∧ envZh.pinyinNumerical zhS ∉ [zhSlug] :=
  ⟨rfl, by decide, by decide, by decide⟩

/-- C4: codify returns und joined with the script subtag when the language
is absent and a script is present, the bare language code when the script
is absent, and with both present (non-und language) omits the script
subtag exactly when the language's default script equals it; in particular
codify en Latn = en and codify None Latn = und-Latn. -/
theorem spec_C4 (env : Env)
    (h1 : env.tagTagFormat "und-Latn" = "und-Latn")
    (h2 : env.tagTagFormat "en" = "en")
    (h3 : env.tagsLanguage "en" = some ⟨"en", some "Latn"⟩) :
    codify env none (some "Latn") = .ok "und-Latn"
    ∧ codify env (some "en") (some "Latn") = .ok "en"
    ∧ (∀ sc, sc ≠ "" →
        codify env none (some sc) = .ok (env.tagTagFormat ("und-" ++ sc)))
    ∧ (∀ lc, codify env (some lc) none
        = .ok (env.tagTagFormat (if lc = "" then "und" else lc)))
    ∧ (∀ lc sc t f, lc ≠ "" → lc ≠ "und" → sc ≠ "" →
        env.tagsLanguage lc = some t → t.script = some f →
        codify env (some lc) (some sc)
          = .ok (env.tagTagFormat (if f = sc then lc else lc ++ "-" ++ sc))) := by
  refine ⟨?_, ?_, ?_, ?_, ?_⟩
  · have e : codify env none (some "Latn")
        = .ok (env.tagTagFormat "und-Latn") := by rfl
    rw [e, h1]
  · simp only [codify, pyTruthy]
    simp [h3, h2]
    intro hx
    exact absurd hx (by decide)
  · intro sc hsc
    have hb : (sc == "") = false := beq_eq_false_iff_ne.mpr hsc
    have he : ("und" ++ "-" ++ sc) = ("und-" ++ sc) := by
      have h0 : ("und" ++ "-" : String) = "und-" := rfl
      rw [h0]
    simp [codify, pyTruthy, hb, he]
  · intro lc
    by_cases hlc : lc = ""
    · subst hlc
      simp [codify, pyTruthy]
    · have hb : (lc == "") = false := beq_eq_false_iff_ne.mpr hlc
      simp [codify, pyTruthy, hb, hlc]
  · intro lc sc t f hlc hund hsc hlook hf
    have hb1 : (lc == "") = false := beq_eq_false_iff_ne.mpr hlc
    have hb2 : (sc == "") = false := beq_eq_false_iff_ne.mpr hsc
    have hb3 : (lc == "und") = false := beq_eq_false_iff_ne.mpr hund
    by_cases hfs : f = sc
    · have hb4 : (f == sc) = true := beq_iff_eq.mpr hfs
      simp [codify, pyTruthy, hb1, hb2, hb3, hlook, hf, hb4, hfs]
    · have hb4 : (f == sc) = false := beq_eq_false_iff_ne.mpr hfs
      simp [codify, pyTruthy, hb1, hb2, hb3, hlook, hf, hb4, hfs]

/-- Witness for C4: the two concrete scenario instances at the English
environment. -/
theorem spec_C4_witness :
    codify envEng none (some "Latn") = .ok "und-Latn"
    ∧ codify envEng (some "en") (some "Latn") = .ok "en" :=
  ⟨(spec_C4 envEng rfl rfl rfl).1, (spec_C4 envEng rfl rfl rfl).2.1⟩

/-- C6: whenever classify succeeds, the returned script code follows the
fixed precedence: the truthy caller override, else the script detected by
check_script on the input, else the default script of the resolved
language tag, else und; each successfully formatted code is capitalized
before being returned. -/
theorem spec_C6 (env : Env) (s : String) (lco sco : Option String)
    (res : Classification) (ltv : LangTagV)
    (hl : langPhase env (norm env s) lco = .ok ltv)
    (h : classify env s lco sco = .ok res) :
    res.script =
      match pyTruthy sco with
      | some sc => capitalizePy (env.tagTagFormat sc)
      | none =>
        match check_script s with
        | some c => capitalizePy (env.tagTagFormat c)
        | none =>
          match ltv with
          | .tagObj t =>
            match t.script with
            | some f => capitalizePy f
            | none => "und"
          | _ => "und" := by
  obtain ⟨ltv2, scf, att, h1, h2, h3, hres⟩ := classify_ok_elim h
  have hlv : ltv = ltv2 := Except.ok.inj (hl.symm.trans h1)
  subst hlv
  subst hres
  dsimp only
  unfold scriptPhase at h2
  cases hsc : pyTruthy sco with
  | some sc =>
    rw [hsc] at h2
    exact (Except.ok.inj h2).symm
  | none =>
    rw [hsc] at h2
    cases hcs : check_script s with
    | some c =>
      rw [hcs] at h2
      exact (Except.ok.inj h2).symm
    | none =>
      rw [hcs] at h2
      cases ltv with
      | tagObj t =>
        have h2x : (match t.script with
            | some f => (Except.ok (capitalizePy f) : Except CErr String)
            | none => Except.ok "und") = .ok scf := h2
        show scf = (match t.script with
            | some f => capitalizePy f
            | none => "und")
        cases hf : t.script with
        | some f =>
          rw [hf] at h2x
          exact (Except.ok.inj h2x).symm
        | none =>
          rw [hf] at h2x
          exact (Except.ok.inj h2x).symm
      | pyNone =>
        show scf = "und"
        exact (Except.ok.inj h2).symm
      | pyString sv =>
        show scf = "und"
        have h2x : (if (sv == "") = true then (Except.ok "und" : Except CErr String)
            else .error .attributeError) = .ok scf := h2
        by_cases hv : (sv == "") = true
        · rw [if_pos hv] at h2x
          exact (Except.ok.inj h2x).symm
        · rw [if_neg hv] at h2x
          exact Except.noConfusion h2x

/-- Witness for C6: in the English scenario the caller supplies no script,
check_script detects Latn, and the returned script is its capitalized
formatted form. -/
theorem spec_C6_witness :
    ("Latn" : String) = capitalizePy (envEng.tagTagFormat "Latn") :=
  spec_C6 envEng sEng none none
    ⟨some sEng, [slugEng, sEng, sEngLower], .str "en", "Latn"⟩
    (.tagObj ⟨"en", some "Latn"⟩) (by rfl) (by rfl)

/-- C3: for inputs of at least five whitespace tokens with no caller
language code, classify raises the langconflict RuntimeError exactly when
the candidate code set has two or more members and the fastText code
equals the langid code; and when the candidate set has two or more members
with the two codes different, classify succeeds (given a well-formed
registry entry for the fastText code) and that code becomes the resolved
language. -/
theorem spec_C3 (env : Env) (s : String) (sco : Option String)
    (h5 : 5 ≤ (pySplit (norm env s)).length) :
    ((∃ cs, classify env s none sco = .error (.langConflict cs)) ↔
      (1 < (detectCodes env (norm env s)).length ∧
        (env.ftDetect (norm env s)).1 = (env.langidClassify (norm env s)).1))
    ∧ (∀ t, 1 < (detectCodes env (norm env s)).length →
        (env.ftDetect (norm env s)).1 ≠ (env.langidClassify (norm env s)).1 →
        env.tagsLanguage (env.ftDetect (norm env s)).1 = some t →
        env.tagsLanguage t.format = some t →
        (∃ f, t.script = some f) →
        t.format ≠ "und" →
        ∃ res, classify env s none sco = .ok res
          ∧ res.language = PyStr.str t.format) := by
  constructor
  · constructor
    · rintro ⟨cs, hc⟩
      unfold classify at hc
      split at hc
      next e h1 =>
        have he : e = .langConflict cs := Except.error.inj hc
        subst he
        have h1d : langDetectPhase env (norm env s)
            = .error (.langConflict cs) := h1
        unfold langDetectPhase at h1d
        rw [if_pos h5] at h1d
        by_cases hlen : 1 < (detectCodes env (norm env s)).length
        · rw [if_pos hlen] at h1d
          by_cases hft : (env.ftDetect (norm env s)).1
              ≠ (env.langidClassify (norm env s)).1
          · rw [if_pos hft] at h1d
            exact Except.noConfusion h1d
          · exact ⟨hlen, not_not.mp hft⟩
        · rw [if_neg hlen] at h1d
          split at h1d
          · exact Except.noConfusion h1d
          · exact Except.noConfusion h1d
      next ltv h1 =>
        split at hc
        next e h2 =>
          have he := scriptPhase_error_eq h2
          subst he
          exact CErr.noConfusion (Except.error.inj hc)
        next scf h2 =>
          split at hc
          next e h3 =>
            have he := attestedPhase_error_eq h3
            subst he
            exact CErr.noConfusion (Except.error.inj hc)
          next att h3 => exact Except.noConfusion hc
    · rintro ⟨hlen, hft⟩
      refine ⟨detectCodes env (norm env s), ?_⟩
      have hlang : langPhase env (norm env s) none
          = .error (.langConflict (detectCodes env (norm env s))) := by
        show langDetectPhase env (norm env s) = _
        unfold langDetectPhase
        rw [if_pos h5, if_pos hlen, if_neg (not_not_intro hft)]
      unfold classify
      rw [hlang]
  · intro t hlen hft hlook hlook2 hfex hund
    obtain ⟨f, hf⟩ := hfex
    have hlang : langPhase env (norm env s) none = .ok (.tagObj t) := by
      show langDetectPhase env (norm env s) = _
      unfold langDetectPhase
      rw [if_pos h5, if_pos hlen, if_pos hft]
      unfold langFromCode
      rw [hlook]
    obtain ⟨scf, hscf⟩ := scriptPhase_tagObj_ok env s sco t
    have hpe : pyStrEq (.str t.format) "und" = false := by
      simp only [pyStrEq]
      exact beq_eq_false_iff_ne.mpr hund
    have hhf : haniFix scf (languageCodeFinal (.tagObj t)) = .str t.format := by
      simp [haniFix, languageCodeFinal, hpe]
    obtain ⟨att, hatt⟩ :=
      @attestedPhase_str_ok env (norm env s) t.format scf t f hlook2 hf
    have hatt2 : attestedPhase env (norm env s)
        (haniFix scf (languageCodeFinal (.tagObj t))) scf = .ok att := by
      rw [hhf]; exact hatt
    refine ⟨_, classify_eq_ok hlang hscf hatt2, ?_⟩
    dsimp only
    exact hhf

/-- Witness for C3: applying the conflict criterion at a concrete
environment where langid and fastText agree on ru while langdetect answers
uk, so the candidate set has two members and classify raises. -/
theorem spec_C3_witness :
    ∃ cs, classify envC3r "a b c d e" none none
      = .error (.langConflict cs) :=
  (spec_C3 envC3r "a b c d e" none (by decide)).1.mpr ⟨by decide, by decide⟩

/-- C5 (amended): codify is idempotent whenever the tag canonicalization
pass leaves the composed strings unchanged (in particular for canonically
cased hyphen-free inputs): parsing the returned tag into its language and
script subtags and re-codifying yields the identical string.  With a
non-canonically cased script code the recasing can make the second pass
drop the subtag, so the unrestricted claim fails. -/
theorem spec_C5_amended (env : Env) (lco sco : Option String) (r : String)
    (hfmt : ∀ x, env.tagTagFormat x = x)
    (hl : ∀ l, pyTruthy lco = some l → ∀ c ∈ l.data, c ≠ '-')
    (hs : ∀ sc, pyTruthy sco = some sc → ∀ c ∈ sc.data, c ≠ '-')
    (h : codify env lco sco = .ok r) :
    codify env (parseTag r).1 (parseTag r).2 = .ok r := by
  cases hts : pyTruthy sco with
  | none =>
    cases htl : pyTruthy lco with
    | none =>
      simp only [codify, hts, htl, hfmt] at h
      have hr : "und" = r := Except.ok.inj h
      subst hr
      rw [parseTag_no_dash (by decide)]
      simp [codify, pyTruthy, hfmt]
    | some l =>
      obtain ⟨-, hlne⟩ := pyTruthy_some htl
      simp only [codify, hts, htl, hfmt] at h
      have hr : l = r := Except.ok.inj h
      subst hr
      rw [parseTag_no_dash (hl l htl)]
      simp [codify, pyTruthy, beq_eq_false_iff_ne.mpr hlne, hfmt]
  | some sc =>
    obtain ⟨-, hsne⟩ := pyTruthy_some hts
    have hsd := hs sc hts
    have hscb : (sc == "") = false := beq_eq_false_iff_ne.mpr hsne
    cases htl : pyTruthy lco with
    | none =>
      simp only [codify, hts, htl, hfmt] at h
      simp only [show ("und" == "und") = true from rfl, if_true] at h
      have hr : "und" ++ "-" ++ sc = r := Except.ok.inj h
      subst hr
      rw [parseTag_two (by decide) hsd]
      simp [codify, pyTruthy, hscb, hfmt]
      rw [show ("und" ++ "-" : String) = "und-" from rfl]
    | some l =>
      obtain ⟨-, hlne⟩ := pyTruthy_some htl
      have hld := hl l htl
      have hlb : (l == "") = false := beq_eq_false_iff_ne.mpr hlne
      by_cases hlund : l = "und"
      · subst hlund
        simp only [codify, hts, htl, hfmt] at h
        simp only [show ("und" == "und") = true from rfl, if_true] at h
        have hr : "und" ++ "-" ++ sc = r := Except.ok.inj h
        subst hr
        rw [parseTag_two (by decide) hsd]
        simp [codify, pyTruthy, hscb, hfmt]
        rw [show ("und" ++ "-" : String) = "und-" from rfl]
      · have hlub : (l == "und") = false := beq_eq_false_iff_ne.mpr hlund
        cases hlook : env.tagsLanguage l with
        | none =>
          simp only [codify, hts, htl, hlub, hlook] at h
          simp at h
        | some t =>
          cases hsf : t.script with
          | none =>
            simp only [codify, hts, htl, hlub, hlook, hsf] at h
            simp at h
          | some f =>
            by_cases hfsc : f = sc
            · have hfb : (f == sc) = true := beq_iff_eq.mpr hfsc
              simp only [codify, hts, htl, hlub, hlook, hsf, hfb, hfmt] at h
              simp only [Bool.false_eq_true, if_false, if_true] at h
              have hr : l = r := Except.ok.inj h
              subst hr
              rw [parseTag_no_dash hld]
              simp [codify, pyTruthy, hlb, hfmt]
            · have hfb : (f == sc) = false := beq_eq_false_iff_ne.mpr hfsc
              simp only [codify, hts, htl, hlub, hlook, hsf, hfb, hfmt] at h
              simp only [Bool.false_eq_true, if_false] at h
              have hr : l ++ "-" ++ sc = r := Except.ok.inj h
              subst hr
              rw [parseTag_two hld hsd]
              simp [codify, pyTruthy, hlb, hscb, hlub, hlook, hsf, hfb, hfmt]

/-- Witness for the amended C5: the canonical pair (ru, Latn) round-trips
through parseTag unchanged. -/
theorem spec_C5_amended_witness :
    codify envC3 (parseTag "ru-Latn").1 (parseTag "ru-Latn").2
      = .ok "ru-Latn" :=
  spec_C5_amended envC3 (some "ru") (some "Latn") "ru-Latn"
    (fun _ => rfl)
    (fun l hlx => by
      have h2 : "ru" = l := Option.some.inj hlx
      subst h2
      decide)
    (fun sc hsx => by
      have h2 : "Latn" = sc := Option.some.inj hsx
      subst h2
      decide)
    (by rfl)

/-- C5 counterexample: with the realistic registry formatter, codify of
(ru, cyrl) returns "ru-Cyrl"; parsing that back and re-codifying returns
"ru", a different string, because the recased subtag Cyrl now equals the
default script of Russian and is omitted. -/
theorem spec_C5_cex :
    codify envReg (some "ru") (some "cyrl") = .ok "ru-Cyrl"
    ∧ codify envReg (parseTag "ru-Cyrl").1 (parseTag "ru-Cyrl").2 = .ok "ru"
    ∧ ("ru" : String) ≠ "ru-Cyrl" :=
  ⟨by rfl, by rfl, by decide⟩

end Unigaz
